import Mathlib

/-!
Shallow embedding of `src/pwalk_ext/pwalk_core.c` (parallel filesystem
walker producing a CSV stream, optionally zstd-compressed).

Modelling notes.

* The filesystem is an explicit environment `FS`: `lstat` returns the
  metadata snapshot for a path (or `none` on failure), `readdir` returns
  the entry-name list of a directory in enumeration order (or `none` when
  `opendir` fails).

* `traverse` embeds the record-producing semantics of the C function
  `traverse` (pwalk_core.c:134-220).  The C code either spawns a detached
  thread on a free slot or recurses inline for a subdirectory; both
  branches run the same body on the same arguments (`dname = fullpath`,
  `pinode = cur->pstat.st_ino`, `depth = cur->depth + 1`, `pstat = f`) and
  produce the same records, only the destination BufferCell differs, so
  for record content we model the recursion directly.  Recursion is
  bounded by explicit fuel; theorems about a directory's records are
  stated at positive fuel so that the directory's own body runs.

* Buffer / flush behaviour (`flush_buffer`, pwalk_core.c:65-86, and the
  append path of `write_record`, pwalk_core.c:117-131) is embedded at the
  byte level as `flush_bufferB` / `write_recordB`; bytes are `Nat`, sink
  writes are tagged by provenance (`raw` vs compressor output).

* The per-worker production-order discipline (records are appended to the
  worker's private BufferCell and flushed in FIFO order) is embedded as
  the operation model `applyOp` on `WOut`.

* The cleanup epilogue of `traverse` (pwalk_core.c:209-219: flush, then
  under the pool lock `ThreadCNT--` and `THRDid = -1` for top-of-worker
  calls, plain return for nested calls) is embedded as `cleanup` over the
  global state `GState`.

* The entry point `csv_write` (pwalk_core.c:223-327) is embedded as
  `csv_write`: sink open, header write, root lstat, the walk, the final
  flush and the zstd end frame.  The outcomes of the individual `fwrite`
  calls are an environment parameter `fwriteOk`; the C code never reads
  `fwrite`'s return value, and the embedding mirrors that: only the
  ground-truth field `writeFailed` of the result depends on it.
-/

namespace PwalkCore

/-- MAXTHRDS from pwalk_core.c:27. -/
def MAXTHRDS : Nat := 32

/-- BUFFER_SIZE from pwalk_core.c:29 (512 KiB). -/
def BUFFER_SIZE : Nat := 512 * 1024

/-- MetadataSnapshot: the `struct stat` fields the walker reads. -/
structure Stat where
  st_ino : Nat
  st_dev : Nat
  st_mode : Nat
  st_nlink : Nat
  st_uid : Nat
  st_gid : Nat
  st_size : Int
  st_blocks : Int
  st_atime : Int
  st_mtime : Int
  st_ctime : Int
  deriving DecidableEq

/-- S_ISDIR: `(mode & S_IFMT) == S_IFDIR`, with S_IFMT = 0o170000 = 61440
and S_IFDIR = 0o040000 = 16384. -/
def S_ISDIR (m : Nat) : Bool := m &&& 61440 == 16384

/-- Filesystem environment: lstat results and readdir listings. -/
structure FS where
  lstat : String → Option Stat
  readdir : String → Option (List String)

/-- The fields of `struct threadData` (pwalk_core.c:38-48) that determine
the records a traversal produces. -/
structure TD where
  dname : String
  pinode : Nat
  depth : Int
  pstat : Stat
  deriving DecidableEq

/-- One output record: the arguments of `write_record`
(pwalk_core.c:103-104).  `fcount = -1, dirsum = 0` marks an EntryRecord;
a DirectorySummaryRecord carries the aggregates. -/
structure Record where
  path : String
  st : Stat
  pinode : Nat
  depth : Int
  fcount : Int
  dirsum : Int
  deriving DecidableEq

/-- The skip test of the enumeration loop (pwalk_core.c:151-154):
`.` and `..` always, `.snapshot` when the SNAPSHOT flag is set. -/
def skipName (snap : Bool) (n : String) : Bool :=
  n == "." || n == ".." || (snap && n == ".snapshot")

/-- Path composition `snprintf(fullpath, MAXPATH, "%s/%s", ...)`
(pwalk_core.c:156), without the MAXPATH truncation. -/
def childPath (d n : String) : String := d ++ "/" ++ n

/-- The EntryRecord written for a non-directory child
(pwalk_core.c:202). -/
def entryRecord (td : TD) (fp : String) (f : Stat) : Record :=
  { path := fp, st := f, pinode := td.pstat.st_ino, depth := td.depth,
    fcount := -1, dirsum := 0 }

/-- The DirectorySummaryRecord written after the enumeration loop
(pwalk_core.c:207). -/
def summaryRecord (td : TD) (cnt sz : Int) : Record :=
  { path := td.dname, st := td.pstat, pinode := td.pinode, depth := td.depth,
    fcount := cnt, dirsum := sz }

/-- The enumeration loop of `traverse` (pwalk_core.c:150-204): skips,
lstat, aggregate updates, entry records, and recursion into
subdirectories via `recur`.  Returns the records in production order
together with (localCnt, localSz). -/
def walk (fs : FS) (snap : Bool) (recur : TD → List Record) (td : TD) :
    List String → List Record × Int × Int
  | [] => ([], 0, 0)
  | n :: ns =>
    if skipName snap n then walk fs snap recur td ns
    else
      match fs.lstat (childPath td.dname n) with
      | none => walk fs snap recur td ns
      | some f =>
        let rest := walk fs snap recur td ns
        if S_ISDIR f.st_mode then
          (recur { dname := childPath td.dname n, pinode := td.pstat.st_ino,
                   depth := td.depth + 1, pstat := f } ++ rest.1,
           rest.2.1 + 1, rest.2.2)
        else
          (entryRecord td (childPath td.dname n) f :: rest.1,
           rest.2.1 + 1, rest.2.2 + f.st_size)

/-- Record-level semantics of `traverse` (pwalk_core.c:134-220): on
opendir failure no records; otherwise the loop's records followed by the
directory's own summary record.  `fuel` bounds the recursion depth. -/
def traverse (fs : FS) (snap : Bool) : Nat → TD → List Record
  | 0, _ => []
  | fuel + 1, td =>
    match fs.readdir td.dname with
    | none => []
    | some names =>
      let w := walk fs snap (traverse fs snap fuel) td names
      w.1 ++ [summaryRecord td w.2.1 w.2.2]

/-- Substring after the last '/', whole string when there is none:
`strrchr(path, '/')` followed by `filename ? filename + 1 : path`
(pwalk_core.c:108-109), on character lists. -/
def afterLastSlash (cs : List Char) : List Char :=
  ((cs.reverse).takeWhile (fun c => c != '/')).reverse

/-- The filename field derivation of `write_record`
(pwalk_core.c:108-109). -/
def filenameOf (path : String) : String := ⟨afterLastSlash path.data⟩

/-- The extension field derivation of `write_record`
(pwalk_core.c:111-112): substring after the last '.' of the filename
provided that dot is not the first character, else empty. -/
def extOf (filename : String) : String :=
  match filename.data with
  | [] => ""
  | _ :: rest =>
    if '.' ∈ rest then ⟨((rest.reverse).takeWhile (fun c => c != '.')).reverse⟩
    else ""

/-- csv_escape (pwalk_core.c:89-100): embedded double quotes are
doubled. -/
def csv_escape : List Char → List Char
  | [] => []
  | c :: cs => if c = '"' then '"' :: '"' :: csv_escape cs else c :: csv_escape cs

/-- The filename field of a record as the formatter emits it (before
quoting/escaping, which are content-preserving). -/
def filenameField (r : Record) : String := filenameOf r.path

/-- One write delivered to the underlying sink, tagged by provenance:
`raw` bytes bypass the compressor, `comp` bytes are fed through
`ZSTD_compressStream2(..., ZSTD_e_continue)` first, `compEnd` is the
final `ZSTD_e_end` frame epilogue. -/
inductive SinkItem where
  | raw : List Nat → SinkItem
  | comp : List Nat → SinkItem
  | compEnd : SinkItem
  deriving DecidableEq

/-- flush_buffer (pwalk_core.c:65-86): empty buffers are not flushed;
otherwise the buffer's bytes go through the compressor when the zstd
stream exists and raw otherwise, and the used length is reset. -/
def flush_bufferB (z : Bool) (buf : List Nat) (sink : List SinkItem) :
    List Nat × List SinkItem :=
  if buf.length = 0 then (buf, sink)
  else if z then ([], sink ++ [SinkItem.comp buf])
  else ([], sink ++ [SinkItem.raw buf])

/-- The append path of write_record (pwalk_core.c:126-130): if
`used + len >= BUFFER_SIZE` the buffer is flushed first, then the line is
appended.  `line` is the encoded record line. -/
def write_recordB (z : Bool) (line : List Nat) (buf : List Nat)
    (sink : List SinkItem) : List Nat × List SinkItem :=
  let p := if BUFFER_SIZE ≤ buf.length + line.length
           then flush_bufferB z buf sink else (buf, sink)
  (p.1 ++ line, p.2)

/-- flush_buffer as a transformer of the (buffer, sink) pair. -/
def flushPair (z : Bool) (p : List Nat × List SinkItem) :
    List Nat × List SinkItem :=
  flush_bufferB z p.1 p.2

/-- The two operations a worker performs on its output pipeline: append a
record to its private BufferCell, or flush the BufferCell to the sink. -/
inductive OutOp where
  | emit : Record → OutOp
  | flushOp : OutOp
  deriving DecidableEq

/-- A single worker's output pipeline at record granularity: the records
already serialized to the sink and the records still in its
BufferCell. -/
structure WOut where
  sink : List Record
  buf : List Record
  deriving DecidableEq

/-- Effect of one operation: `write_record` appends at the end of the
BufferCell; `flush_buffer` moves the whole BufferCell content to the sink
in order. -/
def applyOp (s : WOut) : OutOp → WOut
  | OutOp.emit r => { s with buf := s.buf ++ [r] }
  | OutOp.flushOp => { sink := s.sink ++ s.buf, buf := [] }

/-- A sequence of pipeline operations. -/
def applyOps (s : WOut) (ops : List OutOp) : WOut := ops.foldl applyOp s

/-- The records a sequence of operations produced, in production order. -/
def emittedOf (ops : List OutOp) : List Record :=
  ops.filterMap fun o =>
    match o with
    | OutOp.emit r => some r
    | OutOp.flushOp => none

/-- Global coordination state: `ThreadCNT`, the `THRDid` slot-identity
table, the worker's BufferCell content and the flushed output
(pwalk_core.c:51-54). -/
structure GState where
  threadCNT : Int
  thrdIds : List Int
  buf : List Record
  sink : List Record
  deriving DecidableEq

/-- The flush of the worker's BufferCell (cleanup step 1,
pwalk_core.c:212). -/
def flushStep (g : GState) : GState :=
  { g with sink := g.sink ++ g.buf, buf := [] }

/-- Slot release under the pool lock (cleanup steps 2-3,
pwalk_core.c:213-216): `ThreadCNT--` and `cur->THRDid = -1`. -/
def releaseStep (slot : Nat) (g : GState) : GState :=
  { g with threadCNT := g.threadCNT - 1, thrdIds := g.thrdIds.set slot (-1) }

/-- The cleanup epilogue of traverse (pwalk_core.c:209-219): a
top-of-worker call (`flag == 0`) flushes its BufferCell and then releases
its slot; a nested call returns with the state untouched. -/
def cleanup (flag : Nat) (slot : Nat) (g : GState) : GState :=
  if flag = 0 then releaseStep slot (flushStep g) else g

/-- A whole traverse invocation acting on the global state: the records
it produces (none when opendir fails) are appended to its BufferCell,
then the cleanup epilogue runs. -/
def traverseRun (fs : FS) (snap : Bool) (fuel : Nat) (td : TD)
    (flag : Nat) (slot : Nat) (g : GState) : GState :=
  cleanup flag slot { g with buf := g.buf ++ traverse fs snap fuel td }

/-- One chunk delivered to the sink by the entry point, at record
granularity, tagged by provenance. -/
inductive SinkChunk where
  | headerC : String → SinkChunk
  | raw : List Record → SinkChunk
  | comp : List Record → SinkChunk
  | compEnd : SinkChunk
  deriving DecidableEq

/-- The fixed header line (pwalk_core.c:247-249). -/
def headerLine : String :=
  "inode,parent-inode,directory-depth,\"filename\",\"fileExtension\",UID,GID,st_size,st_dev,st_blocks,st_nlink,\"st_mode\",st_atime,st_mtime,st_ctime,pw_fcount,pw_dirsum\n"

/-- flush_buffer at record granularity, used by the entry-point model:
same structure as `flush_bufferB` (empty guard, compressor branch). -/
def flush_bufferR (z : Bool) (buf : List Record) (sink : List SinkChunk) :
    List Record × List SinkChunk :=
  if buf = [] then (buf, sink)
  else if z then ([], sink ++ [SinkChunk.comp buf])
  else ([], sink ++ [SinkChunk.raw buf])

/-- The dictionary the entry point returns on success
(pwalk_core.c:326). -/
structure PyResult where
  output : String
  compressed : Bool
  deriving DecidableEq

/-- Return value of the entry point. -/
inductive CsvRet where
  | ok : PyResult → CsvRet
  | ioError : CsvRet
  | osError : CsvRet
  deriving DecidableEq

/-- Observable outcome of one entry-point run.  `writeFailed` is ground
truth about the environment (some `fwrite` reported an error); the C
code never reads `fwrite`'s return value, so no other field may depend
on it. -/
structure RunOut where
  ret : CsvRet
  sink : List SinkChunk
  launched : Bool
  closed : Bool
  writeFailed : Bool
  deriving DecidableEq

/-- The entry point csv_write (pwalk_core.c:223-327): open the sink
(`openOk` is the environment's answer), write the header raw, lstat the
root (failure closes the sink and returns an error), run the root worker
with `pinode = 0`, `depth = -1`, flush its BufferCell, and finalize the
zstd stream with an end frame.  `fwriteOk i` is the outcome of the i-th
fwrite call; the code ignores it. -/
def csv_write (fs : FS) (fuel : Nat) (top outPath : String) (openOk : Bool)
    (ignoreSnaps compress : Bool) (fwriteOk : Nat → Bool) : RunOut :=
  if openOk = false then
    { ret := CsvRet.ioError, sink := [], launched := false, closed := false,
      writeFailed := false }
  else
    let sink0 := [SinkChunk.headerC headerLine]
    match fs.lstat top with
    | none =>
      { ret := CsvRet.osError, sink := sink0, launched := false, closed := true,
        writeFailed := (List.range sink0.length).any fun i => fwriteOk i = false }
    | some root =>
      let recs := traverse fs ignoreSnaps fuel
        { dname := top, pinode := 0, depth := -1, pstat := root }
      let p := flush_bufferR compress recs sink0
      let sink2 := if compress then p.2 ++ [SinkChunk.compEnd] else p.2
      { ret := CsvRet.ok { output := outPath, compressed := compress },
        sink := sink2, launched := true, closed := true,
        writeFailed := (List.range sink2.length).any fun i => fwriteOk i = false }

/-- Reference (spec-side) list of the lstat snapshots of the children of
`d` that pass the skip filter: "children for which lstat succeeded and
that were not filtered out". -/
def keptStats (fs : FS) (snap : Bool) (d : String) (names : List String) :
    List Stat :=
  names.filterMap fun n =>
    if skipName snap n then none else fs.lstat (childPath d n)

/-- Reference pw_fcount: the number of kept children. -/
def specFcount (fs : FS) (snap : Bool) (d : String) (names : List String) : Int :=
  (keptStats fs snap d names).length

/-- Reference pw_dirsum: the sum of st_size over the kept children that
are not directories. -/
def specDirsum (fs : FS) (snap : Bool) (d : String) (names : List String) : Int :=
  ((keptStats fs snap d names).map fun st =>
    if S_ISDIR st.st_mode then (0 : Int) else st.st_size).sum

/-- Validity of a filesystem environment: every name readdir returns is
nonempty and contains no path separator (guaranteed by the OS for
`dirent` names). -/
def goodNames (fs : FS) : Prop :=
  ∀ d names, fs.readdir d = some names →
    ∀ n ∈ names, n.data ≠ [] ∧ '/' ∉ n.data

/-- A directory snapshot (mode 0o40755 = 16877). -/
def dirStat (ino : Nat) : Stat :=
  { st_ino := ino, st_dev := 7, st_mode := 16877, st_nlink := 2,
    st_uid := 1000, st_gid := 1000, st_size := 4096, st_blocks := 8,
    st_atime := 10, st_mtime := 11, st_ctime := 12 }

/-- A regular-file snapshot (mode 0o100644 = 33188). -/
def fileStat (ino : Nat) (size : Int) : Stat :=
  { st_ino := ino, st_dev := 7, st_mode := 33188, st_nlink := 1,
    st_uid := 1000, st_gid := 1000, st_size := size, st_blocks := 1,
    st_atime := 20, st_mtime := 21, st_ctime := 22 }

/-- Concrete filesystem: `/t2` (inode 200) holding files `a.txt`
(inode 201, size 10) and `b` (inode 202, size 3), plus a subdirectory
`sub` (inode 203) that cannot be opened. -/
def fsT2 : FS where
  lstat p :=
    if p = "/t2" then some (dirStat 200)
    else if p = "/t2/a.txt" then some (fileStat 201 10)
    else if p = "/t2/b" then some (fileStat 202 3)
    else if p = "/t2/sub" then some (dirStat 203)
    else none
  readdir d :=
    if d = "/t2" then some ["a.txt", "b", "sub"] else none

/-- The root thread-data seeded by the entry point for `/t2`. -/
def tdT2 : TD :=
  { dname := "/t2", pinode := 0, depth := -1, pstat := dirStat 200 }

/-- Concrete filesystem: empty directory `/t1` (inode 100). -/
def fsT1 : FS where
  lstat p := if p = "/t1" then some (dirStat 100) else none
  readdir d := if d = "/t1" then some [] else none

/-- The root thread-data seeded by the entry point for `/t1`. -/
def tdT1 : TD :=
  { dname := "/t1", pinode := 0, depth := -1, pstat := dirStat 100 }

/-- A filesystem on which every lstat fails. -/
def fsNone : FS where
  lstat _ := none
  readdir _ := none

/-- A concrete global state for instantiating the cleanup theorems. -/
def gEx : GState :=
  { threadCNT := 1, thrdIds := [0, -1, -1], buf := [summaryRecord tdT1 0 0],
    sink := [] }

/-- Concrete filesystem: `/t4` holding a directory named `.snapshot` and
a regular file `x` of size 7. -/
def fsT4 : FS where
  lstat p :=
    if p = "/t4" then some (dirStat 400)
    else if p = "/t4/.snapshot" then some (dirStat 401)
    else if p = "/t4/x" then some (fileStat 402 7)
    else none
  readdir d :=
    if d = "/t4" then some [".snapshot", "x"]
    else if d = "/t4/.snapshot" then some []
    else none

/-- The root thread-data seeded by the entry point for `/t4`. -/
def tdT4 : TD :=
  { dname := "/t4", pinode := 0, depth := -1, pstat := dirStat 400 }

/-! ## Helper lemmas -/

/-- Length of a composed child path. -/
theorem length_childPath (d n : String) :
    (childPath d n).length = d.length + 1 + n.length := by
  have h1 : ("/" : String).length = 1 := rfl
  simp [childPath, String.length_append, h1]

/-- The loop aggregates equal the reference counts: localCnt is the
number of kept children, localSz the size sum of the kept non-directory
children. -/
theorem walk_counts (fs : FS) (snap : Bool) (recur : TD → List Record) (td : TD) :
    ∀ names, (walk fs snap recur td names).2.1 = specFcount fs snap td.dname names ∧
      (walk fs snap recur td names).2.2 = specDirsum fs snap td.dname names
  | [] => by simp [walk, specFcount, specDirsum, keptStats]
  | n :: ns => by
    obtain ⟨ih1, ih2⟩ := walk_counts fs snap recur td ns
    simp only [specFcount, specDirsum, keptStats] at ih1 ih2
    by_cases h : skipName snap n = true
    · simp [walk, h, specFcount, specDirsum, keptStats, ih1, ih2]
    · cases hl : fs.lstat (childPath td.dname n) with
      | none => simp [walk, h, hl, specFcount, specDirsum, keptStats, ih1, ih2]
      | some f =>
        by_cases hd : S_ISDIR f.st_mode = true
        · simp [walk, h, hl, hd, specFcount, specDirsum, keptStats, ih1, ih2]
        · simp [walk, h, hl, hd, specFcount, specDirsum, keptStats, ih1, ih2]
          omega

/-- Every record the loop produces has a path strictly longer than the
traversed directory's path. -/
theorem walk_path_lt (fs : FS) (snap : Bool) (recur : TD → List Record) (td : TD)
    (hrec : ∀ td' r, r ∈ recur td' → td'.dname.length ≤ r.path.length) :
    ∀ names r, r ∈ (walk fs snap recur td names).1 →
      td.dname.length < r.path.length
  | [], r => by simp [walk]
  | n :: ns, r => by
    have ih := fun r => walk_path_lt fs snap recur td hrec ns r
    by_cases h : skipName snap n = true
    · intro hr; exact ih r (by simpa [walk, h] using hr)
    · cases hl : fs.lstat (childPath td.dname n) with
      | none => intro hr; exact ih r (by simpa [walk, h, hl] using hr)
      | some f =>
        by_cases hd : S_ISDIR f.st_mode = true
        · intro hr
          rw [walk] at hr
          simp only [h, if_false, Bool.false_eq_true, hl, hd, if_true,
            List.mem_append] at hr
          rcases hr with hr | hr
          · have hle := hrec _ r hr
            have hcp := length_childPath td.dname n
            simp only at hle
            omega
          · exact ih r hr
        · intro hr
          rw [walk] at hr
          simp only [h, if_false, Bool.false_eq_true, hl, hd, if_true,
            List.mem_cons] at hr
          rcases hr with hr | hr
          · have hcp := length_childPath td.dname n
            subst hr
            simp [entryRecord]
            omega
          · exact ih r hr

/-- Every record a traversal of `td` produces has a path at least as long
as `td.dname`; equality can only hold for `td`'s own summary record. -/
theorem traverse_path_le (fs : FS) (snap : Bool) :
    ∀ fuel td r, r ∈ traverse fs snap fuel td → td.dname.length ≤ r.path.length
  | 0, _, r => by simp [traverse]
  | fuel + 1, td, r => by
    cases hrd : fs.readdir td.dname with
    | none => simp [traverse, hrd]
    | some names =>
      intro hr
      simp only [traverse, hrd, List.mem_append, List.mem_singleton] at hr
      rcases hr with hr | hr
      · exact le_of_lt (walk_path_lt fs snap _ td
          (fun td' r hmem => traverse_path_le fs snap fuel td' r hmem) names r hr)
      · subst hr; simp [summaryRecord]

/-! ## Claim C1 -/

/-- C1: for every directory whose opendir succeeded, the traversal of
that directory emits exactly one record carrying the directory's own
path — its DirectorySummaryRecord — whose pw_fcount equals the number of
direct children (directories and non-regular files included) for which
lstat succeeded and that were not filtered out, and whose pw_dirsum
equals the sum of the st_size values of exactly those kept children that
are not directories. -/
theorem C1_summary_aggregates (fs : FS) (snap : Bool) (fuel : Nat) (td : TD)
    (names : List String) (hrd : fs.readdir td.dname = some names) :
    (traverse fs snap (fuel + 1) td).filter (fun r => r.path == td.dname)
      = [summaryRecord td (specFcount fs snap td.dname names)
          (specDirsum fs snap td.dname names)] := by
  obtain ⟨hc1, hc2⟩ := walk_counts fs snap (traverse fs snap fuel) td names
  have hW : ∀ r ∈ (walk fs snap (traverse fs snap fuel) td names).1,
      td.dname.length < r.path.length :=
    fun r hr => walk_path_lt fs snap _ td
      (fun td' r hmem => traverse_path_le fs snap fuel td' r hmem) names r hr
  have h1 : List.filter (fun r => r.path == td.dname)
      (walk fs snap (traverse fs snap fuel) td names).1 = [] := by
    rw [List.filter_eq_nil_iff]
    intro r hr heq
    have hlt := hW r hr
    have heq2 : r.path = td.dname := by simpa using heq
    rw [heq2] at hlt
    omega
  simp only [traverse, hrd, List.filter_append, h1, List.nil_append]
  simp [summaryRecord, hc1, hc2]

/-- Witness for C1 at the concrete filesystem `fsT2` (two regular files
and one subdirectory under `/t2`). -/
theorem C1_summary_aggregates_witness :
    fsT2.readdir "/t2" = some ["a.txt", "b", "sub"] ∧
    (traverse fsT2 true 2 tdT2).filter (fun r => r.path == tdT2.dname)
      = [summaryRecord tdT2 (specFcount fsT2 true tdT2.dname ["a.txt", "b", "sub"])
          (specDirsum fsT2 true tdT2.dname ["a.txt", "b", "sub"])] :=
  ⟨rfl, C1_summary_aggregates fsT2 true 1 tdT2 ["a.txt", "b", "sub"] rfl⟩

/-! ## Claim C2 -/

/-- Every kept non-directory child's EntryRecord is among the records the
enumeration loop produces. -/
theorem walk_entry_mem (fs : FS) (snap : Bool) (recur : TD → List Record) (td : TD) :
    ∀ names n f, n ∈ names → skipName snap n = false →
      fs.lstat (childPath td.dname n) = some f → S_ISDIR f.st_mode = false →
      entryRecord td (childPath td.dname n) f ∈ (walk fs snap recur td names).1
  | [], n, f => by simp
  | m :: ns, n, f => by
    intro hmem hskip hl hdir
    rcases List.mem_cons.mp hmem with heq | hmem2
    · subst heq
      simp [walk, hskip, hl, hdir]
    · have ih := walk_entry_mem fs snap recur td ns n f hmem2 hskip hl hdir
      by_cases h : skipName snap m = true
      · simpa [walk, h] using ih
      · cases hlm : fs.lstat (childPath td.dname m) with
        | none => simpa [walk, h, hlm] using ih
        | some fm =>
          by_cases hdm : S_ISDIR fm.st_mode = true
          · rw [walk]
            simp only [h, Bool.false_eq_true, if_false, hlm, hdm, if_true,
              List.mem_append]
            exact Or.inr ih
          · rw [walk]
            simp only [h, Bool.false_eq_true, if_false, hlm, hdm, List.mem_cons]
            exact Or.inr ih

/-- A single worker's output pipeline preserves production order: at any
point, sink content followed by buffered content is exactly the emitted
records in order. -/
theorem applyOps_order : ∀ (ops : List OutOp) (s : WOut),
    (applyOps s ops).sink ++ (applyOps s ops).buf
      = s.sink ++ s.buf ++ emittedOf ops
  | [], s => by simp [applyOps, emittedOf]
  | op :: ops, s => by
    have ih := applyOps_order ops (applyOp s op)
    cases op with
    | emit r => simpa [applyOps, applyOp, emittedOf] using ih
    | flushOp => simpa [applyOps, applyOp, emittedOf] using ih

/-- C2: for an opened directory, the traversal's record list is the
loop's records followed by the DirectorySummaryRecord, and every kept
non-directory child's EntryRecord lies in the loop part, so the summary
is written into the BufferCell only after all of them; moreover a single
worker's pipeline (append to the BufferCell, FIFO flush) delivers records
in production order. -/
theorem C2_summary_after_children (fs : FS) (snap : Bool) (fuel : Nat) (td : TD)
    (names : List String) (hrd : fs.readdir td.dname = some names) :
    (traverse fs snap (fuel + 1) td
        = (walk fs snap (traverse fs snap fuel) td names).1
          ++ [summaryRecord td (walk fs snap (traverse fs snap fuel) td names).2.1
                (walk fs snap (traverse fs snap fuel) td names).2.2]
      ∧ ∀ n ∈ names, ∀ f, skipName snap n = false →
          fs.lstat (childPath td.dname n) = some f → S_ISDIR f.st_mode = false →
          entryRecord td (childPath td.dname n) f
            ∈ (walk fs snap (traverse fs snap fuel) td names).1)
    ∧ ∀ (s : WOut) (ops : List OutOp),
        (applyOps s ops).sink ++ (applyOps s ops).buf
          = s.sink ++ s.buf ++ emittedOf ops := by
  refine ⟨⟨?_, ?_⟩, ?_⟩
  · simp [traverse, hrd]
  · intro n hmem f hskip hl hdir
    exact walk_entry_mem fs snap _ td names n f hmem hskip hl hdir
  · intro s ops
    exact applyOps_order ops s

/-- Witness for C2 at `fsT2`: the EntryRecord of `/t2/a.txt` precedes the
summary of `/t2`, and a concrete emit/flush sequence preserves order. -/
theorem C2_summary_after_children_witness :
    fsT2.readdir "/t2" = some ["a.txt", "b", "sub"]
    ∧ traverse fsT2 true 2 tdT2
        = (walk fsT2 true (traverse fsT2 true 1) tdT2 ["a.txt", "b", "sub"]).1
          ++ [summaryRecord tdT2
                (walk fsT2 true (traverse fsT2 true 1) tdT2 ["a.txt", "b", "sub"]).2.1
                (walk fsT2 true (traverse fsT2 true 1) tdT2 ["a.txt", "b", "sub"]).2.2]
    ∧ entryRecord tdT2 (childPath tdT2.dname "a.txt") (fileStat 201 10)
        ∈ (walk fsT2 true (traverse fsT2 true 1) tdT2 ["a.txt", "b", "sub"]).1
    ∧ (applyOps { sink := [], buf := [] }
          [OutOp.emit (summaryRecord tdT2 0 0), OutOp.flushOp]).sink
        ++ (applyOps { sink := [], buf := [] }
          [OutOp.emit (summaryRecord tdT2 0 0), OutOp.flushOp]).buf
        = [] ++ [] ++ emittedOf [OutOp.emit (summaryRecord tdT2 0 0), OutOp.flushOp] := by
  have h := C2_summary_after_children fsT2 true 1 tdT2 ["a.txt", "b", "sub"] rfl
  exact ⟨rfl, h.1.1,
    h.1.2 "a.txt" (by decide) (fileStat 201 10) (by decide) (by decide) (by decide),
    h.2 { sink := [], buf := [] }
      [OutOp.emit (summaryRecord tdT2 0 0), OutOp.flushOp]⟩

/-! ## Claim C3 -/

/-- C3: a nested invocation's epilogue is the identity on the coordination
state (counter, slot identities, buffer, flushed output are untouched and
nothing is flushed); a top-of-worker epilogue first flushes the
BufferCell and only then decrements the counter and sets the slot
identity to the unused sentinel -1, its result being exactly the slot
release applied after the flush — and this also runs when opening the
directory failed (the traversal produced no records). -/
theorem C3_cleanup_roles :
    (∀ (flag slot : Nat) (g : GState), flag ≠ 0 → cleanup flag slot g = g)
    ∧ (∀ (slot : Nat) (g : GState),
        cleanup 0 slot g = releaseStep slot (flushStep g)
        ∧ (cleanup 0 slot g).sink = g.sink ++ g.buf
        ∧ (cleanup 0 slot g).buf = []
        ∧ (cleanup 0 slot g).threadCNT = g.threadCNT - 1
        ∧ (cleanup 0 slot g).thrdIds = g.thrdIds.set slot (-1))
    ∧ ∀ (fs : FS) (snap : Bool) (fuel : Nat) (td : TD) (slot : Nat) (g : GState),
        fs.readdir td.dname = none →
        traverseRun fs snap fuel td 0 slot g = releaseStep slot (flushStep g) := by
  refine ⟨?_, ?_, ?_⟩
  · intro flag slot g hf
    simp [cleanup, hf]
  · intro slot g
    refine ⟨rfl, ?_, ?_, ?_, ?_⟩ <;> simp [cleanup, releaseStep, flushStep]
  · intro fs snap fuel td slot g hrd
    cases fuel with
    | zero => simp [traverseRun, traverse, cleanup]
    | succ fuel => simp [traverseRun, traverse, hrd, cleanup]

/-- Witness for C3: a nested epilogue (flag 1) leaves the concrete state
`gEx` unchanged; a top-of-worker epilogue on `gEx` flushes then releases;
the opendir-failure path on `fsNone` still flushes and releases. -/
theorem C3_cleanup_roles_witness :
    ((1 : Nat) ≠ 0 ∧ cleanup 1 0 gEx = gEx)
    ∧ (cleanup 0 0 gEx).sink = gEx.sink ++ gEx.buf
    ∧ (fsNone.readdir tdT1.dname = none
       ∧ traverseRun fsNone true 1 tdT1 0 0 gEx = releaseStep 0 (flushStep gEx)) :=
  ⟨⟨by decide, C3_cleanup_roles.1 1 0 gEx (by decide)⟩,
   (C3_cleanup_roles.2.1 0 gEx).2.1,
   ⟨rfl, C3_cleanup_roles.2.2 fsNone true 1 tdT1 0 gEx rfl⟩⟩

/-! ## Claim C4 -/

/-- C4: on a successfully opened sink, the first chunk delivered is the
fixed header line, raw; no later chunk is a header; and when compression
is enabled every later chunk is compressor output (a compressed payload
chunk or the final end frame) — no raw record bytes bypass the
compressor, so the compressed frame begins immediately after the
header. -/
theorem C4_header_then_compressed (fs : FS) (fuel : Nat) (top outPath : String)
    (snap compress : Bool) (fwriteOk : Nat → Bool) :
    ∃ rest, (csv_write fs fuel top outPath true snap compress fwriteOk).sink
        = SinkChunk.headerC headerLine :: rest
      ∧ (∀ s, SinkChunk.headerC s ∉ rest)
      ∧ (compress = true →
          ∀ c ∈ rest, (∃ b, c = SinkChunk.comp b) ∨ c = SinkChunk.compEnd) := by
  cases hl : fs.lstat top with
  | none =>
    exact ⟨[], by simp [csv_write, hl], by simp, by simp⟩
  | some root =>
    by_cases hr : traverse fs snap fuel
        { dname := top, pinode := 0, depth := -1, pstat := root } = []
    · by_cases hc : compress = true
      · refine ⟨[SinkChunk.compEnd], ?_, by simp, by simp⟩
        simp [csv_write, hl, hr, hc, flush_bufferR]
      · refine ⟨[], ?_, by simp, by simp [hc]⟩
        simp [csv_write, hl, hr, hc, flush_bufferR]
    · by_cases hc : compress = true
      · refine ⟨[SinkChunk.comp (traverse fs snap fuel
            { dname := top, pinode := 0, depth := -1, pstat := root }),
            SinkChunk.compEnd], ?_, by simp, ?_⟩
        · simp [csv_write, hl, hr, hc, flush_bufferR]
        · intro _ c hc2
          rcases List.mem_cons.mp hc2 with h1 | h1
          · exact Or.inl ⟨_, h1⟩
          · simp at h1
            exact Or.inr h1
      · refine ⟨[SinkChunk.raw (traverse fs snap fuel
            { dname := top, pinode := 0, depth := -1, pstat := root })], ?_, by simp,
            by simp [hc]⟩
        simp [csv_write, hl, hr, hc, flush_bufferR]

/-! ## Claim C5 -/

/-- C5: the self and parent references are always skipped; `.snapshot` is
skipped exactly when the ignore-snapshots flag is set (when the flag is
clear a `.snapshot` child with successful lstat is counted); a child
whose lstat fails is skipped entirely — in each skip case the loop's
records and both aggregates are exactly those of the remaining
entries. -/
theorem C5_skip_rules (fs : FS) (snap : Bool) (recur : TD → List Record)
    (td : TD) (ns : List String) :
    (walk fs snap recur td ("." :: ns) = walk fs snap recur td ns)
    ∧ (walk fs snap recur td (".." :: ns) = walk fs snap recur td ns)
    ∧ (snap = true →
        walk fs snap recur td (".snapshot" :: ns) = walk fs snap recur td ns)
    ∧ (∀ f, snap = false → fs.lstat (childPath td.dname ".snapshot") = some f →
        (walk fs snap recur td (".snapshot" :: ns)).2.1
          = (walk fs snap recur td ns).2.1 + 1)
    ∧ (∀ n, skipName snap n = false → fs.lstat (childPath td.dname n) = none →
        walk fs snap recur td (n :: ns) = walk fs snap recur td ns) := by
  refine ⟨?_, ?_, ?_, ?_, ?_⟩
  · simp [walk, skipName]
  · simp [walk, skipName]
  · intro hs
    simp [walk, skipName, hs]
  · intro f hs hl
    subst hs
    rw [walk]
    simp only [skipName]
    norm_num
    rw [hl]
    by_cases hd : S_ISDIR f.st_mode = true <;> simp [hd]
  · intro n hn hl
    simp [walk, hn, hl]

/-- Witness for C5 at `fsT4` (which holds `.snapshot` and `x`). -/
theorem C5_skip_rules_witness :
    (walk fsT4 false (fun _ => []) tdT4 ("." :: ["x"])
       = walk fsT4 false (fun _ => []) tdT4 ["x"])
    ∧ (walk fsT4 true (fun _ => []) tdT4 (".snapshot" :: ["x"])
       = walk fsT4 true (fun _ => []) tdT4 ["x"])
    ∧ (fsT4.lstat (childPath tdT4.dname ".snapshot") = some (dirStat 401)
       ∧ (walk fsT4 false (fun _ => []) tdT4 (".snapshot" :: ["x"])).2.1
           = (walk fsT4 false (fun _ => []) tdT4 ["x"]).2.1 + 1)
    ∧ (skipName true "zz" = false ∧ fsT4.lstat (childPath tdT4.dname "zz") = none
       ∧ walk fsT4 true (fun _ => []) tdT4 ("zz" :: [])
           = walk fsT4 true (fun _ => []) tdT4 []) :=
  ⟨(C5_skip_rules fsT4 false (fun _ => []) tdT4 ["x"]).1,
   (C5_skip_rules fsT4 true (fun _ => []) tdT4 ["x"]).2.2.1 rfl,
   ⟨by decide,
    (C5_skip_rules fsT4 false (fun _ => []) tdT4 ["x"]).2.2.2.1
      (dirStat 401) rfl (by decide)⟩,
   ⟨by decide, by decide,
    (C5_skip_rules fsT4 true (fun _ => []) tdT4 []).2.2.2.2 "zz"
      (by decide) (by decide)⟩⟩

/-! ## Claim C6 -/

/-- takeWhile keeps a list all of whose elements satisfy the test. -/
theorem takeWhile_eq_of_all (p : Char → Bool) :
    ∀ l : List Char, (∀ c ∈ l, p c = true) → l.takeWhile p = l
  | [], _ => rfl
  | c :: cs, h => by
    have hc := h c (List.mem_cons_self c cs)
    simp [List.takeWhile_cons, hc,
      takeWhile_eq_of_all p cs (fun x hx => h x (List.mem_cons_of_mem c hx))]

/-- takeWhile of good elements followed by a failing element. -/
theorem takeWhile_append_stop (p : Char → Bool) (b : Char) (hb : p b = false) :
    ∀ (l1 l2 : List Char), (∀ c ∈ l1, p c = true) →
      (l1 ++ b :: l2).takeWhile p = l1
  | [], l2, _ => by simp [List.takeWhile_cons, hb]
  | c :: cs, l2, h => by
    have hc := h c (List.mem_cons_self c cs)
    simp [List.takeWhile_cons, hc,
      takeWhile_append_stop p b hb cs l2 (fun x hx => h x (List.mem_cons_of_mem c hx))]

/-- dropWhile is empty or starts with an element failing the test. -/
theorem dropWhile_cases (p : Char → Bool) :
    ∀ l : List Char, l.dropWhile p = []
      ∨ ∃ c cs, l.dropWhile p = c :: cs ∧ p c = false
  | [] => Or.inl rfl
  | c :: cs => by
    by_cases hc : p c = true
    · simpa [List.dropWhile_cons, hc] using dropWhile_cases p cs
    · refine Or.inr ⟨c, cs, ?_, by simpa using hc⟩
      simp [List.dropWhile_cons, hc]

/-- A path without separators is its own filename field. -/
theorem filenameOf_no_slash (p : String) (h : '/' ∉ p.data) : filenameOf p = p := by
  have hall : ∀ c ∈ p.data.reverse, (c != '/') = true := by
    intro c hc
    rw [bne_iff_ne]
    intro heq
    subst heq
    exact h (List.mem_reverse.mp hc)
  show String.mk (afterLastSlash p.data) = p
  rw [afterLastSlash, takeWhile_eq_of_all _ _ hall, List.reverse_reverse]

/-- The filename field is a separator-free suffix of the path, sitting
right after the final separator when the path has one. -/
theorem filenameOf_decomp (p : String) :
    ∃ pre : List Char, p.data = pre ++ (filenameOf p).data
      ∧ '/' ∉ (filenameOf p).data
      ∧ ('/' ∈ p.data → pre.getLast? = some '/') := by
  refine ⟨(p.data.reverse.dropWhile (fun c => c != '/')).reverse, ?_, ?_, ?_⟩
  · show p.data = _ ++ afterLastSlash p.data
    rw [afterLastSlash]
    conv_lhs => rw [← List.reverse_reverse p.data]
    rw [← List.takeWhile_append_dropWhile (p := fun c => c != '/')
        (l := p.data.reverse), List.reverse_append]
    simp
  · intro hmem
    rw [show (filenameOf p).data = afterLastSlash p.data from rfl, afterLastSlash,
      List.mem_reverse] at hmem
    have := List.mem_takeWhile_imp hmem
    simp at this
  · intro hmem
    rcases dropWhile_cases (fun c => c != '/') p.data.reverse with hnil | ⟨c, cs, heq, hc⟩
    · rw [List.dropWhile_eq_nil_iff] at hnil
      have := hnil '/' (List.mem_reverse.mpr hmem)
      simp at this
    · have hc2 : c = '/' := by simpa using hc
      rw [heq, hc2, List.getLast?_reverse]
      rfl

/-- The filename field of a composed child path is the entry name. -/
theorem filenameOf_childPath (d n : String) (h : '/' ∉ n.data) :
    filenameOf (childPath d n) = n := by
  have hdata : (childPath d n).data = d.data ++ '/' :: n.data := by
    simp [childPath]
  have hall : ∀ c ∈ n.data.reverse, (c != '/') = true := by
    intro c hc
    rw [bne_iff_ne]
    intro heq
    subst heq
    exact h (List.mem_reverse.mp hc)
  show String.mk (afterLastSlash (childPath d n).data) = n
  rw [afterLastSlash, hdata, List.reverse_append]
  have hsplit : ('/' :: n.data).reverse ++ d.data.reverse
      = n.data.reverse ++ '/' :: d.data.reverse := by
    simp
  rw [hsplit, takeWhile_append_stop _ '/' (by simp) n.data.reverse _ hall,
    List.reverse_reverse]

/-- Records produced inside the enumeration loop have nonempty filename
fields, provided directory-entry names are nonempty and separator-free. -/
theorem walk_filename_ne (fs : FS) (snap : Bool) (recur : TD → List Record) (td : TD)
    (hrec : ∀ td' r, r ∈ recur td' →
      r.path = td'.dname ∨ (filenameField r).data ≠ []) :
    ∀ names, (∀ n ∈ names, n.data ≠ [] ∧ '/' ∉ n.data) →
      ∀ r ∈ (walk fs snap recur td names).1, (filenameField r).data ≠ []
  | [], _ => by simp [walk]
  | n :: ns, hn => by
    have hhead := hn n (List.mem_cons_self n ns)
    have htail := fun x hx => hn x (List.mem_cons_of_mem n hx)
    have ih := walk_filename_ne fs snap recur td hrec ns htail
    intro r hr
    by_cases h : skipName snap n = true
    · exact ih r (by simpa [walk, h] using hr)
    · cases hl : fs.lstat (childPath td.dname n) with
      | none => exact ih r (by simpa [walk, h, hl] using hr)
      | some f =>
        by_cases hd : S_ISDIR f.st_mode = true
        · rw [walk] at hr
          simp only [h, Bool.false_eq_true, if_false, hl, hd, if_true,
            List.mem_append] at hr
          rcases hr with hr | hr
          · rcases hrec _ r hr with hp | hp
            · rw [filenameField, hp]
              show (filenameOf (childPath td.dname n)).data ≠ []
              rw [filenameOf_childPath td.dname n hhead.2]
              exact hhead.1
            · exact hp
          · exact ih r hr
        · rw [walk] at hr
          simp only [h, Bool.false_eq_true, if_false, hl, hd, List.mem_cons] at hr
          rcases hr with hr | hr
          · subst hr
            rw [filenameField]
            show (filenameOf (childPath td.dname n)).data ≠ []
            rw [filenameOf_childPath td.dname n hhead.2]
            exact hhead.1
          · exact ih r hr

/-- Every record of a traversal either carries the traversal root's path
(its summary record) or has a nonempty filename field. -/
theorem traverse_filename_ne (fs : FS) (snap : Bool) (hg : goodNames fs) :
    ∀ fuel td r, r ∈ traverse fs snap fuel td →
      r.path = td.dname ∨ (filenameField r).data ≠ []
  | 0, _, r => by simp [traverse]
  | fuel + 1, td, r => by
    cases hrd : fs.readdir td.dname with
    | none => simp [traverse, hrd]
    | some names =>
      intro hr
      simp only [traverse, hrd, List.mem_append, List.mem_singleton] at hr
      rcases hr with hr | hr
      · exact Or.inr (walk_filename_ne fs snap _ td
          (fun td' r hmem => traverse_filename_ne fs snap hg fuel td' r hmem)
          names (hg td.dname names hrd) r hr)
      · subst hr
        exact Or.inl rfl

/-- C6 (amended): the filename field of every record — the traversal
root's DirectorySummaryRecord included — is the substring of the record's
path after the final path separator (the whole path when it has none):
the root's path is passed verbatim to the formatter, which still extracts
its final component.  For non-root records the path is a composed
`parent/entry` path, so the field equals the entry name and is nonempty
whenever directory-entry names are nonempty and separator-free. -/
theorem C6_filename_field :
    (∀ p : String, '/' ∉ p.data → filenameOf p = p)
    ∧ (∀ p : String, ∃ pre : List Char, p.data = pre ++ (filenameOf p).data
        ∧ '/' ∉ (filenameOf p).data
        ∧ ('/' ∈ p.data → pre.getLast? = some '/'))
    ∧ (∀ d n : String, '/' ∉ n.data → filenameOf (childPath d n) = n)
    ∧ (∀ (fs : FS) (snap : Bool), goodNames fs →
        ∀ fuel td r, r ∈ traverse fs snap fuel td →
          r.path = td.dname ∨ (filenameField r).data ≠ [])
    ∧ (∀ (td : TD) (cnt sz : Int),
        filenameField (summaryRecord td cnt sz) = filenameOf td.dname) :=
  ⟨filenameOf_no_slash, filenameOf_decomp, filenameOf_childPath,
   fun fs snap hg => traverse_filename_ne fs snap hg,
   fun _ _ _ => rfl⟩

/-- Counterexample for C6 as stated: the traversal root `/t1` produces
exactly its DirectorySummaryRecord, but that record's filename field is
`t1`, the component after the final separator — not the root's path
`/t1` used verbatim. -/
theorem C6_filename_field_counterexample :
    traverse fsT1 true 1 tdT1 = [summaryRecord tdT1 0 0]
    ∧ (summaryRecord tdT1 0 0).path = "/t1"
    ∧ (summaryRecord tdT1 0 0).fcount ≠ -1
    ∧ filenameField (summaryRecord tdT1 0 0) = "t1"
    ∧ filenameField (summaryRecord tdT1 0 0) ≠ "/t1" := by
  refine ⟨?_, ?_, ?_, ?_, ?_⟩ <;> decide

/-- Witness for C6 (amended) on concrete paths and the `/t1` walk. -/
theorem C6_filename_field_witness :
    ('/' ∉ ("abc" : String).data ∧ filenameOf "abc" = "abc")
    ∧ (∃ pre : List Char, ("/t2/a.txt" : String).data
          = pre ++ (filenameOf "/t2/a.txt").data
        ∧ '/' ∉ (filenameOf "/t2/a.txt").data
        ∧ ('/' ∈ ("/t2/a.txt" : String).data → pre.getLast? = some '/'))
    ∧ ('/' ∉ ("a.txt" : String).data ∧ filenameOf (childPath "/t2" "a.txt") = "a.txt")
    ∧ (goodNames fsT1
       ∧ (summaryRecord tdT1 0 0 ∈ traverse fsT1 true 1 tdT1 →
           (summaryRecord tdT1 0 0).path = tdT1.dname
           ∨ (filenameField (summaryRecord tdT1 0 0)).data ≠ []))
    ∧ filenameField (summaryRecord tdT1 7 9) = filenameOf tdT1.dname := by
  have hg : goodNames fsT1 := by
    intro d names h
    by_cases hd : d = "/t1"
    · subst hd
      have hnames : names = [] := by
        have : some [] = some names := by simpa [fsT1] using h
        simpa using this.symm
      simp [hnames]
    · exfalso
      simp [fsT1, hd] at h
  exact ⟨⟨by decide, C6_filename_field.1 "abc" (by decide)⟩,
    C6_filename_field.2.1 "/t2/a.txt",
    ⟨by decide, C6_filename_field.2.2.1 "/t2" "a.txt" (by decide)⟩,
    ⟨hg, C6_filename_field.2.2.2.1 fsT1 true hg 1 tdT1 (summaryRecord tdT1 0 0)⟩,
    C6_filename_field.2.2.2.2 tdT1 7 9⟩

/-! ## Claim C7 -/

/-- C7 (amended): an underlying sink write error does not abort running
workers, but it is neither recorded nor surfaced: the entry point's
return value, sink traffic, launch decision and close behaviour are all
independent of the fwrite outcomes (the code discards fwrite's return
value everywhere). -/
theorem C7_write_error_ignored (fs : FS) (fuel : Nat) (top outPath : String)
    (openOk snap compress : Bool) (f g : Nat → Bool) :
    (csv_write fs fuel top outPath openOk snap compress f).ret
      = (csv_write fs fuel top outPath openOk snap compress g).ret
    ∧ (csv_write fs fuel top outPath openOk snap compress f).sink
      = (csv_write fs fuel top outPath openOk snap compress g).sink
    ∧ (csv_write fs fuel top outPath openOk snap compress f).launched
      = (csv_write fs fuel top outPath openOk snap compress g).launched
    ∧ (csv_write fs fuel top outPath openOk snap compress f).closed
      = (csv_write fs fuel top outPath openOk snap compress g).closed := by
  unfold csv_write
  by_cases ho : openOk = false
  · simp [ho]
  · simp only [ho, if_false]
    cases fs.lstat top <;> simp

/-- Counterexample for C7 as stated: with every fwrite failing, a write
error did occur (`writeFailed`), yet the entry point still returns the
ordinary success dictionary — the first write error is NOT returned from
the entry point at termination. -/
theorem C7_write_error_counterexample :
    (csv_write fsT1 1 "/t1" "out.csv" true true false (fun _ => false)).writeFailed
      = true
    ∧ (csv_write fsT1 1 "/t1" "out.csv" true true false (fun _ => false)).ret
      = CsvRet.ok { output := "out.csv", compressed := false } := by
  constructor <;> decide

/-! ## Claim C8 -/

/-- C8: whenever the encoded line would reach or pass the BufferCell
capacity the formatter flushes through the sink before appending (the new
buffer content is exactly the line and the sink is the flushed one), and
under the precondition that a single line is strictly shorter than the
capacity the used length stays strictly below the capacity — the append
never writes past the end of the BufferCell. -/
theorem C8_append_bounded (z : Bool) (line buf : List Nat) (sink : List SinkItem)
    (hline : line.length < BUFFER_SIZE) (hbuf : buf.length < BUFFER_SIZE) :
    (write_recordB z line buf sink).1.length < BUFFER_SIZE
    ∧ (BUFFER_SIZE ≤ buf.length + line.length →
        (write_recordB z line buf sink).1 = line
        ∧ (write_recordB z line buf sink).2 = (flush_bufferB z buf sink).2) := by
  by_cases hc : BUFFER_SIZE ≤ buf.length + line.length
  · have hne : ¬ buf.length = 0 := by omega
    have hw : write_recordB z line buf sink
        = ((flush_bufferB z buf sink).1 ++ line, (flush_bufferB z buf sink).2) := by
      unfold write_recordB
      simp [hc]
    have hf1 : (flush_bufferB z buf sink).1 = [] := by
      unfold flush_bufferB
      by_cases hz : z = true <;> simp [hne, hz]
    rw [hw, hf1]
    exact ⟨by simpa using hline, fun _ => ⟨by simp, rfl⟩⟩
  · have hw : write_recordB z line buf sink = (buf ++ line, sink) := by
      unfold write_recordB
      simp [hc]
    rw [hw]
    refine ⟨?_, fun h => absurd h hc⟩
    simp
    omega

/-- Witness for C8: a one-byte line into an empty BufferCell. -/
theorem C8_append_bounded_witness :
    ([0] : List Nat).length < BUFFER_SIZE
    ∧ ([] : List Nat).length < BUFFER_SIZE
    ∧ ((write_recordB false [0] [] []).1.length < BUFFER_SIZE
       ∧ (BUFFER_SIZE ≤ ([] : List Nat).length + ([0] : List Nat).length →
           (write_recordB false [0] [] []).1 = [0]
           ∧ (write_recordB false [0] [] []).2 = (flush_bufferB false [] []).2)) :=
  ⟨by decide, by decide, C8_append_bounded false [0] [] [] (by decide) (by decide)⟩

/-! ## Claim C9 -/

/-- C9: flushing an empty BufferCell is a complete no-op — no raw bytes
reach the sink and no compressed bytes are emitted in the zstd branch —
and since every flush resets the used length to zero, flushing twice in
succession equals flushing once. -/
theorem C9_flush_noop_idempotent :
    (∀ (z : Bool) (sink : List SinkItem), flush_bufferB z [] sink = ([], sink))
    ∧ ∀ (z : Bool) (buf : List Nat) (sink : List SinkItem),
        flushPair z (flushPair z (buf, sink)) = flushPair z (buf, sink) := by
  constructor
  · intro z sink
    simp [flush_bufferB]
  · intro z buf sink
    by_cases hb : buf.length = 0
    · simp [flushPair, flush_bufferB, hb]
    · by_cases hz : z = true <;> simp [flushPair, flush_bufferB, hb, hz]

/-! ## Claim C10 -/

/-- C10: when the sink opens but the root lstat fails, the entry point
returns an error with the header line already delivered as the sink's
only content, the file closed, no worker launched and no records
produced. -/
theorem C10_root_lstat_failure (fs : FS) (fuel : Nat) (top outPath : String)
    (snap compress : Bool) (fwriteOk : Nat → Bool)
    (h : fs.lstat top = none) :
    (csv_write fs fuel top outPath true snap compress fwriteOk).ret = CsvRet.osError
    ∧ (csv_write fs fuel top outPath true snap compress fwriteOk).sink
        = [SinkChunk.headerC headerLine]
    ∧ (csv_write fs fuel top outPath true snap compress fwriteOk).launched = false
    ∧ (csv_write fs fuel top outPath true snap compress fwriteOk).closed = true := by
  unfold csv_write
  simp [h]

/-- Witness for C10 on the all-failing filesystem. -/
theorem C10_root_lstat_failure_witness :
    fsNone.lstat "/x" = none
    ∧ ((csv_write fsNone 1 "/x" "o.csv" true true true (fun _ => true)).ret
          = CsvRet.osError
       ∧ (csv_write fsNone 1 "/x" "o.csv" true true true (fun _ => true)).sink
          = [SinkChunk.headerC headerLine]
       ∧ (csv_write fsNone 1 "/x" "o.csv" true true true (fun _ => true)).launched
          = false
       ∧ (csv_write fsNone 1 "/x" "o.csv" true true true (fun _ => true)).closed
          = true) :=
  ⟨rfl, C10_root_lstat_failure fsNone 1 "/x" "o.csv" true true (fun _ => true) rfl⟩


end PwalkCore
